import Mathlib

/-!
# Verification of the Supabase read-only MCP server

Shallow embedding of the two request-handling surfaces of the server
(`index.js`): the Express HTTP route handlers and the line-delimited
JSON-RPC STDIO dispatcher, together with the query pipeline they issue
against the backing Supabase client.

Machine integers are modelled as `Int`/`Nat`; the backing client is
modelled as an abstract database (`DBModel`) plus transport-failure
flags; fallible operations return `Option`/`Except`.
-/

namespace SupabaseMcp

/-! ## JavaScript `parseInt` and `||`-defaulting

`index.js` normalizes pagination with
`const limit = parseInt(params.limit) || 10` and
`const page  = parseInt(params.page)  || 0`.

`parseIntJS` models ECMAScript `parseInt(s)` (radix argument omitted):
skip leading whitespace, read an optional sign, detect an optional
`0x`/`0X` hexadecimal prefix, then take the longest run of digits of
the radix; an empty run yields NaN, modelled as `none`.  An absent
input (`undefined`) also yields NaN. -/

/-- Value of a hexadecimal digit character, if it is one. -/
def hexDigitVal (c : Char) : Option Nat :=
  if c.isDigit then some (c.toNat - 48)
  else if 'a' ≤ c ∧ c ≤ 'f' then some (c.toNat - 87)
  else if 'A' ≤ c ∧ c ≤ 'F' then some (c.toNat - 55)
  else none

/-- Value of a digit character in the given radix, if valid. -/
def digitVal (radix : Nat) (c : Char) : Option Nat :=
  match hexDigitVal c with
  | some v => if v < radix then some v else none
  | none => none

/-- Longest prefix of digit values in the given radix. -/
def digitRun (radix : Nat) : List Char → List Nat
  | [] => []
  | c :: rest =>
    match digitVal radix c with
    | some v => v :: digitRun radix rest
    | none => []

/-- Numeric value of a digit run read most-significant first. -/
def runVal (radix : Nat) (ds : List Nat) : Nat :=
  ds.foldl (fun a d => a * radix + d) 0

/-- ECMAScript `parseInt` on a character list: whitespace, sign,
optional hex prefix, longest digit run; `none` models NaN. -/
def parseIntList (cs0 : List Char) : Option Int :=
  let cs1 := cs0.dropWhile Char.isWhitespace
  let signAndRest : Int × List Char :=
    match cs1 with
    | '-' :: r => (-1, r)
    | '+' :: r => (1, r)
    | r => (1, r)
  let radixAndRest : Nat × List Char :=
    match signAndRest.2 with
    | '0' :: 'x' :: r => (16, r)
    | '0' :: 'X' :: r => (16, r)
    | r => (10, r)
  match digitRun radixAndRest.1 radixAndRest.2 with
  | [] => none
  | ds => some (signAndRest.1 * (runVal radixAndRest.1 ds : Int))

/-- `parseInt` applied to a possibly-absent raw parameter
(`none` models an absent/`undefined` query or params field). -/
def parseIntJS : Option String → Option Int
  | none => none
  | some s => parseIntList s.toList

/-- JavaScript `x || d` applied to the result of `parseInt`: the
falsy numbers are `NaN` (here `none`) and `0`; every other value,
negative values included, is kept. -/
def jsOrDefault (v : Option Int) (d : Int) : Int :=
  match v with
  | none => d
  | some n => if n = 0 then d else n

/-- `const limit = parseInt(raw) || 10` (index.js lines 98 and 301). -/
def normLimit (raw : Option String) : Int :=
  jsOrDefault (parseIntJS raw) 10

/-- `const page = parseInt(raw) || 0` (index.js lines 99 and 302). -/
def normPage (raw : Option String) : Int :=
  jsOrDefault (parseIntJS raw) 0

/-! ## Backing client model

The Supabase client is modelled as an abstract database: the rows of
`information_schema.tables`, the rows of each user table, and two flags
standing for a transport failure (network/auth) of the metadata query
and of the data fetch respectively. -/

/-- One row of `information_schema.tables`. -/
structure TableRow where
  table_schema : String
  table_name : String
deriving DecidableEq, Repr

/-- A `{schema, name}` pair as returned by `list_tables`. -/
structure TableRef where
  schema : String
  name : String
deriving DecidableEq, Repr

/-- Abstract backing database; `α` is the (opaque) row type of user
tables. `metaFail` / `fetchFail` model a transport-level failure of
the metadata query resp. the ranged data fetch. -/
structure DBModel (α : Type) where
  tables : List TableRow
  rowsOf : String → List α
  metaFail : Bool
  fetchFail : Bool

/-- A query issued to the backing client (recorded for the
noninterference statements). -/
inductive Query where
  /-- `from('information_schema.tables').select(...).eq('table_schema', s).neq('table_name', ex).order(ord)` -/
  | metaListTables (schema : String) (excludeName : String) (orderBy : String)
  /-- `from('information_schema.tables').select('table_name').eq('table_schema', s).eq('table_name', n).single()` -/
  | metaSingleTable (schema : String) (name : String)
  /-- `from(table).select('*', count exact).range(lo, hi)` -/
  | rangeSelectQ (table : String) (lo hi : Int)
deriving DecidableEq, Repr

/-- The `.single()` metadata lookup as destructured by the code:
`{ data: tableCheck, error: tableError }`.  The result is
`(tableCheck, tableError)`: on transport failure, or unless exactly one
row of `information_schema.tables` matches `table_schema = 'public' and
table_name = name`, PostgREST's `.single()` sets the error. -/
def metaSingle {α : Type} (db : DBModel α) (name : String) :
    Option TableRow × Bool :=
  if db.metaFail then (none, true)
  else
    match db.tables.filter
        (fun r => r.table_schema == "public" && r.table_name == name) with
    | [r] => (some r, false)
    | _ => (none, true)

/-- PostgREST `.range(lo, hi)`: the inclusive slice of the row list
from index `lo` to index `hi`. -/
def rangeSelect {α : Type} (rows : List α) (lo hi : Int) : List α :=
  (rows.drop lo.toNat).take (hi + 1 - lo).toNat

/-- The ranged fetch with `{ count: 'exact' }`: `none` models the
error branch (`if (error) throw error`); on success the data slice and
the exact total row count are returned. -/
def fetchRange {α : Type} (db : DBModel α) (t : String) (lo hi : Int) :
    Option (List α × Nat) :=
  if db.fetchFail then none
  else some (rangeSelect (db.rowsOf t) lo hi, (db.rowsOf t).length)

/-- `Math.ceil(count / limit)` on integer inputs, as exact rational
division.  The `limit = 0` guard totalizes the JavaScript
`Infinity`/`NaN` outcome; at every call site the normalized limit is
nonzero (see `normLimit_ne_zero`). -/
def pagesJS (total limit : Int) : Int :=
  if limit = 0 then 0 else Int.ceil ((total : ℚ) / (limit : ℚ))

/-- Lexicographic (code-point-wise) order on character lists,
modelling `ORDER BY table_name` on ASCII table names. -/
def lexLeChars : List Char → List Char → Bool
  | [], _ => true
  | _ :: _, [] => false
  | a :: as, b :: bs =>
    if a.toNat < b.toNat then true
    else if b.toNat < a.toNat then false
    else lexLeChars as bs

/-- `ORDER BY table_name` comparison between two metadata rows. -/
def nameLe (a b : TableRow) : Bool :=
  lexLeChars a.table_name.toList b.table_name.toList

/-- `nameLe` as a relation, for the sortedness lemmas. -/
def rowLe (a b : TableRow) : Prop := nameLe a b = true

instance : DecidableRel rowLe :=
  fun a b => inferInstanceAs (Decidable (nameLe a b = true))

/-- The metadata query behind `list_tables` and
`GET /api/tables/:projectId`: filter `information_schema.tables` to
`table_schema = 'public'`, drop `table_name = 'pg_stat_statements'`,
order ascending by `table_name`; `none` models a failed query. -/
def listTablesQuery {α : Type} (db : DBModel α) : Option (List TableRow) :=
  if db.metaFail then none
  else some
    (((db.tables.filter (fun r => r.table_schema == "public")).filter
        (fun r => r.table_name != "pg_stat_statements")).insertionSort rowLe)

/-- The `{schema, name}` projection applied to the ordered metadata
rows (`data.map(table => ({schema: ..., name: ...}))`). -/
def sortedPublicTables {α : Type} (db : DBModel α) : List TableRef :=
  ((((db.tables.filter (fun r => r.table_schema == "public")).filter
      (fun r => r.table_name != "pg_stat_statements")).insertionSort rowLe)).map
    (fun r => ⟨r.table_schema, r.table_name⟩)

/-! ## HTTP transport (Express server, index.js lines 209-349) -/

/-- `pagination` object of a successful data response. -/
structure Pagination where
  total : Int
  page : Int
  limit : Int
  pages : Int
deriving DecidableEq, Repr

/-- The `data` payload of a successful envelope. -/
inductive HttpPayload (α : Type) where
  | tables (ts : List TableRef)
  | page (rows : List α) (pagination : Pagination)
deriving DecidableEq

/-- The HTTP response as produced by `formatResponse` plus the status
code set on the Express response. -/
structure HttpResponse (α : Type) where
  status : Nat
  success : Bool
  data : Option (HttpPayload α)
  message : Option String
deriving DecidableEq

/-- Handler of `GET /api/tables/:projectId` (index.js lines 272-295).
The project id path segment is received but never read.  Returns the
response together with the queries issued to the backing client. -/
def httpTablesHandler {α : Type} (db : DBModel α) (_projectId : String) :
    HttpResponse α × List Query :=
  let q := Query.metaListTables "public" "pg_stat_statements" "table_name"
  match listTablesQuery db with
  | none =>
    (⟨500, false, none, some "metadata query failed"⟩, [q])
  | some _ =>
    (⟨200, true, some (.tables (sortedPublicTables db)), none⟩, [q])

/-- Handler of `GET /api/data/:projectId/:tableName` (index.js lines
298-338): normalize pagination, check table existence via
`.single()`, then issue the ranged fetch; `tableError || !tableCheck`
yields the 404 envelope, a fetch error is caught and yields 500. -/
def httpDataHandler {α : Type} (db : DBModel α) (_projectId : String)
    (tableName : String) (rawLimit rawPage : Option String) :
    HttpResponse α × List Query :=
  let limit := normLimit rawLimit
  let page := normPage rawPage
  let offset := page * limit
  let q1 := Query.metaSingleTable "public" tableName
  let check := metaSingle db tableName
  if check.2 || check.1.isNone then
    (⟨404, false, none, some ("Table '" ++ tableName ++ "' not found")⟩, [q1])
  else
    let q2 := Query.rangeSelectQ tableName offset (offset + limit - 1)
    match fetchRange db tableName offset (offset + limit - 1) with
    | none =>
      (⟨500, false, none, some "fetch error"⟩, [q1, q2])
    | some (rows, count) =>
      (⟨200, true,
        some (.page rows ⟨(count : Int), page, limit, pagesJS (count : Int) limit⟩),
        none⟩, [q1, q2])

/-! ## JSON-RPC STDIO transport (index.js lines 1-208) -/

/-- A JSON-RPC request id. -/
inductive RpcId where
  | null
  | num (n : Int)
  | str (s : String)
deriving DecidableEq, Repr

/-- The loosely-typed `params` object of a request; every field may be
absent.  `limit`/`page` carry the string image that JavaScript's
`parseInt` coerces its argument to. -/
structure RpcParams where
  project_id : Option String := none
  table_name : Option String := none
  limit : Option String := none
  page : Option String := none
deriving DecidableEq, Repr

/-- `.mcp.json` defaults loaded at startup. -/
structure McpConfig where
  org_id : String := ""
  project_id : String := ""
deriving DecidableEq, Repr

/-- A successful method result. -/
inductive RpcResult (α : Type) where
  | toolsList (names : List String)
  | tables (ts : List TableRef)
  | page (rows : List α) (pagination : Pagination)
deriving DecidableEq

/-- A JSON-RPC response line: `jsonrpc.success(id, result)` or
`jsonrpc.error(id, {code, message})`. -/
inductive RpcOut (α : Type) where
  | success (id : RpcId) (result : RpcResult α)
  | error (id : RpcId) (code : Int) (message : String)
deriving DecidableEq

/-- The `list_tables` method (index.js lines 67-93); an `Except.error`
models a thrown `Error`.  `hasClient` is whether the Supabase client
was initialized at startup. -/
def stdioListTables {α : Type} (cfg : McpConfig) (hasClient : Bool)
    (db : DBModel α) (params : RpcParams) :
    Except String (RpcResult α) × List Query :=
  let _projectId := params.project_id.getD cfg.project_id
  if !hasClient then
    (.error "Supabase client not initialized. Please set SUPABASE_URL and SUPABASE_ANON_KEY environment variables.", [])
  else
    let q := Query.metaListTables "public" "pg_stat_statements" "table_name"
    match listTablesQuery db with
    | none => (.error "Error listing tables: metadata query failed", [q])
    | some _ => (.ok (.tables (sortedPublicTables db)), [q])

/-- The `get_table_data` method (index.js lines 95-139): normalize
pagination, check table existence via `.single()` (a failed check
throws `Table '...' not found`), issue the ranged fetch; any throw in
the `try` block is re-wrapped with the
`Error fetching data from table ...` prefix. -/
def stdioGetTableData {α : Type} (cfg : McpConfig) (hasClient : Bool)
    (db : DBModel α) (params : RpcParams) :
    Except String (RpcResult α) × List Query :=
  let table_name := params.table_name.getD "undefined"
  let _projectId := params.project_id.getD cfg.project_id
  let limit := normLimit params.limit
  let page := normPage params.page
  let offset := page * limit
  if !hasClient then
    (.error "Supabase client not initialized. Please set SUPABASE_URL and SUPABASE_ANON_KEY environment variables.", [])
  else
    let q1 := Query.metaSingleTable "public" table_name
    let check := metaSingle db table_name
    if check.2 || check.1.isNone then
      (.error ("Error fetching data from table " ++ table_name ++
        ": Table '" ++ table_name ++ "' not found"), [q1])
    else
      let q2 := Query.rangeSelectQ table_name offset (offset + limit - 1)
      match fetchRange db table_name offset (offset + limit - 1) with
      | none =>
        (.error ("Error fetching data from table " ++ table_name ++ ": fetch error"),
          [q1, q2])
      | some (rows, count) =>
        (.ok (.page rows ⟨(count : Int), page, limit, pagesJS (count : Int) limit⟩),
          [q1, q2])

/-- The static tool list returned by `listTools`. -/
def toolNames : List String := ["list_tables", "get_table_data"]

/-- A line handed to `jsonrpc.parse`: either a string that is not
valid JSON, or the parsed JSON object's relevant fields (`jsonrpc`
version, `id`, `method`, `params`). -/
inductive LineContent where
  | notJson (raw : String)
  | jsonVal (version : Option String) (id : Option RpcId)
      (method : Option String) (params : RpcParams)
deriving DecidableEq

/-- Outcome of `jsonrpc.parse` (jsonrpc-lite): a string that fails
`JSON.parse` yields type `invalid` with a `parseError` payload (it
does not throw); a parsed object with wrong version or no method is
type `invalid` with an `invalidRequest` payload; a method without an
id is a `notification`; otherwise a `request`. -/
inductive ParsedMsg where
  | invalidParse
  | invalidReq
  | notification
  | request (id : RpcId) (method : String) (params : RpcParams)
deriving DecidableEq

/-- `jsonrpc.parse` (jsonrpc-lite) on a line. -/
def liteParse : LineContent → ParsedMsg
  | .notJson _ => .invalidParse
  | .jsonVal version id mth params =>
    if version ≠ some "2.0" then .invalidReq
    else
      match mth, id with
      | some m, some i => .request i m params
      | some _, none => .notification
      | none, _ => .invalidReq

/-- `handleJsonRpc` (index.js lines 143-171).  `parsed.type ===
'invalid'` (which covers unparsable JSON, since `jsonrpc.parse`
catches the `JSON.parse` failure itself) is answered with
`jsonrpc.error(null, invalidRequest(...))`, code `-32600`; a
non-request with the same; an unknown method with `methodNotFound`
(`-32601`, id echoed); a throwing method with `internalError`
(`-32603`, id echoed); success with `jsonrpc.success(id, result)`. -/
def handleJsonRpc {α : Type} (cfg : McpConfig) (hasClient : Bool)
    (db : DBModel α) (line : LineContent) : RpcOut α × List Query :=
  match liteParse line with
  | .invalidParse => (.error .null (-32600) "Invalid request", [])
  | .invalidReq => (.error .null (-32600) "Invalid request", [])
  | .notification => (.error .null (-32600) "Invalid request", [])
  | .request id mth params =>
    if mth = "listTools" then
      (.success id (.toolsList toolNames), [])
    else if mth = "list_tables" then
      match stdioListTables cfg hasClient db params with
      | (.ok r, qs) => (.success id r, qs)
      | (.error msg, qs) => (.error id (-32603) msg, qs)
    else if mth = "get_table_data" then
      match stdioGetTableData cfg hasClient db params with
      | (.ok r, qs) => (.success id r, qs)
      | (.error msg, qs) => (.error id (-32603) msg, qs)
    else
      (.error id (-32601) ("Method '" ++ mth ++ "' not found"), [])

/-! ## STDIO line framer (index.js lines 176-194)

`inputBuffer += chunk; const lines = inputBuffer.split('\n');` then a
loop over `lines[0 .. lines.length - 2]` that trims each line and
handles it when non-empty; `inputBuffer = lines[lines.length - 1]`.
Strings are modelled as `List Char`. -/

/-- JavaScript `String.prototype.split('\n')`: the (always nonempty)
list of newline-separated parts. -/
def splitLines : List Char → List (List Char)
  | [] => [[]]
  | c :: cs =>
    if c = '\n' then [] :: splitLines cs
    else
      match splitLines cs with
      | [] => [[c]]
      | l :: ls => (c :: l) :: ls

/-- JavaScript `String.prototype.trim()`. -/
def trimWs (l : List Char) : List Char :=
  ((l.dropWhile Char.isWhitespace).reverse.dropWhile Char.isWhitespace).reverse

/-- The `for (let i = 0; i < lines.length - 1; i++)` loop: every line
but the last is trimmed and, when nonempty, handed to
`handleJsonRpc`; this returns the lines actually handled. -/
def processableLines : List (List Char) → List (List Char)
  | [] => []
  | [_] => []
  | l :: rest =>
    let t := trimWs l
    if t = [] then processableLines rest else t :: processableLines rest

/-- One `data` event: append the chunk to the buffer, split, handle
every complete line, retain the trailing fragment as the new buffer. -/
def framerStep (buf chunk : List Char) : List (List Char) × List Char :=
  let ls := splitLines (buf ++ chunk)
  (processableLines ls, ls.getLastD [])

/-- The full per-chunk pipeline: frame, then decode each handled line
(`decode` stands for `JSON.parse`'s verdict on it) and answer it with
`handleJsonRpc`; responses are written in loop order. -/
def stepResponses {α : Type} (cfg : McpConfig) (hasClient : Bool)
    (db : DBModel α) (decode : List Char → LineContent)
    (buf chunk : List Char) : List (RpcOut α) × List Char :=
  let st := framerStep buf chunk
  (st.1.map (fun m => (handleJsonRpc cfg hasClient db (decode m)).1), st.2)

/-! ## Helper lemmas -/

/-- The normalized limit is never zero: `parseInt(raw) || 10` replaces
both `NaN` and `0` by `10`, and keeps every other (nonzero) value. -/
lemma normLimit_ne_zero (raw : Option String) : normLimit raw ≠ 0 := by
  unfold normLimit jsOrDefault
  cases parseIntJS raw with
  | none => decide
  | some n =>
    by_cases h : n = 0
    · simp [h]
    · simp [h]

end SupabaseMcp

namespace SupabaseMcp

/-- On a metadata transport failure the existence check reports an
error, so `tableError || !tableCheck` holds and the HTTP data handler
answers 404. -/
lemma httpDataHandler_metaFail {α : Type} (db : DBModel α) (pid t : String)
    (rL rP : Option String) (hm : db.metaFail = true) :
    httpDataHandler db pid t rL rP =
      (⟨404, false, none, some ("Table '" ++ t ++ "' not found")⟩,
        [Query.metaSingleTable "public" t]) := by
  unfold httpDataHandler metaSingle
  simp [hm]

/-- When no row of `information_schema.tables` matches the requested
name in schema `public`, `.single()` errors and the HTTP data handler
answers 404. -/
lemma httpDataHandler_notFound {α : Type} (db : DBModel α) (pid t : String)
    (rL rP : Option String) (hm : db.metaFail = false)
    (habs : db.tables.filter
      (fun r => r.table_schema == "public" && r.table_name == t) = []) :
    httpDataHandler db pid t rL rP =
      (⟨404, false, none, some ("Table '" ++ t ++ "' not found")⟩,
        [Query.metaSingleTable "public" t]) := by
  unfold httpDataHandler metaSingle
  simp [hm, habs]

/-- On the happy path (no transport failure, exactly one matching
metadata row) the HTTP data handler issues the existence check and the
ranged fetch and returns the 200 envelope. -/
lemma httpDataHandler_success {α : Type} (db : DBModel α) (pid t : String)
    (rL rP : Option String) (r : TableRow)
    (hm : db.metaFail = false) (hf : db.fetchFail = false)
    (hr : db.tables.filter
      (fun row => row.table_schema == "public" && row.table_name == t) = [r]) :
    httpDataHandler db pid t rL rP =
      (⟨200, true,
        some (.page
          (rangeSelect (db.rowsOf t) (normPage rP * normLimit rL)
            (normPage rP * normLimit rL + normLimit rL - 1))
          ⟨((db.rowsOf t).length : Int), normPage rP, normLimit rL,
            pagesJS ((db.rowsOf t).length : Int) (normLimit rL)⟩),
        none⟩,
      [Query.metaSingleTable "public" t,
        Query.rangeSelectQ t (normPage rP * normLimit rL)
          (normPage rP * normLimit rL + normLimit rL - 1)]) := by
  unfold httpDataHandler metaSingle fetchRange
  simp [hm, hf, hr]

/-- On the happy path with a failing data fetch the HTTP data handler
answers 500. -/
lemma httpDataHandler_fetchFail {α : Type} (db : DBModel α) (pid t : String)
    (rL rP : Option String) (r : TableRow)
    (hm : db.metaFail = false) (hf : db.fetchFail = true)
    (hr : db.tables.filter
      (fun row => row.table_schema == "public" && row.table_name == t) = [r]) :
    httpDataHandler db pid t rL rP =
      (⟨500, false, none, some "fetch error"⟩,
      [Query.metaSingleTable "public" t,
        Query.rangeSelectQ t (normPage rP * normLimit rL)
          (normPage rP * normLimit rL + normLimit rL - 1)]) := by
  unfold httpDataHandler metaSingle fetchRange
  simp [hm, hf, hr]

/-- The STDIO `get_table_data` on the happy path. -/
lemma stdioGetTableData_success {α : Type} (cfg : McpConfig)
    (db : DBModel α) (pp : Option String) (t : String)
    (rL rP : Option String) (r : TableRow)
    (hm : db.metaFail = false) (hf : db.fetchFail = false)
    (hr : db.tables.filter
      (fun row => row.table_schema == "public" && row.table_name == t) = [r]) :
    stdioGetTableData cfg true db ⟨pp, some t, rL, rP⟩ =
      (.ok (.page
        (rangeSelect (db.rowsOf t) (normPage rP * normLimit rL)
          (normPage rP * normLimit rL + normLimit rL - 1))
        ⟨((db.rowsOf t).length : Int), normPage rP, normLimit rL,
          pagesJS ((db.rowsOf t).length : Int) (normLimit rL)⟩),
      [Query.metaSingleTable "public" t,
        Query.rangeSelectQ t (normPage rP * normLimit rL)
          (normPage rP * normLimit rL + normLimit rL - 1)]) := by
  unfold stdioGetTableData metaSingle fetchRange
  simp [hm, hf, hr]

/-- The STDIO `get_table_data` when no metadata row matches: the
`Table not found` throw is re-wrapped by the catch. -/
lemma stdioGetTableData_notFound {α : Type} (cfg : McpConfig)
    (db : DBModel α) (pp : Option String) (t : String)
    (rL rP : Option String) (hm : db.metaFail = false)
    (habs : db.tables.filter
      (fun r => r.table_schema == "public" && r.table_name == t) = []) :
    stdioGetTableData cfg true db ⟨pp, some t, rL, rP⟩ =
      (.error ("Error fetching data from table " ++ t ++
        ": Table '" ++ t ++ "' not found"),
      [Query.metaSingleTable "public" t]) := by
  unfold stdioGetTableData metaSingle
  simp [hm, habs]

/-- C1 (corrected): normalization never fails (it is a total
function); a raw `limit`/`page` whose integer conversion fails gets
the default 10 / 0; a conversion result of `0` also gets the default;
but any other conversion result — negative values included — is kept
verbatim. -/
theorem C1_pagination_normalization (raw : Option String) :
    (parseIntJS raw = none → normLimit raw = 10 ∧ normPage raw = 0) ∧
    (parseIntJS raw = some 0 → normLimit raw = 10 ∧ normPage raw = 0) ∧
    (∀ n : Int, parseIntJS raw = some n → n ≠ 0 →
      normLimit raw = n ∧ normPage raw = n) := by
  unfold normLimit normPage jsOrDefault
  refine ⟨fun h => ?_, fun h => ?_, fun n h hn => ?_⟩
  · rw [h]; exact ⟨rfl, rfl⟩
  · rw [h]; simp
  · rw [h]; simp [hn]

/-- Witness for C1 at the non-convertible input `"abc"`. -/
theorem C1_pagination_normalization_witness :
    normLimit (some "abc") = 10 ∧ normPage (some "abc") = 0 :=
  (C1_pagination_normalization (some "abc")).1 rfl

/-- C1 counterexample: the negative raw limit `"-5"` converts to the
integer `-5`, which is truthy in JavaScript, so `parseInt(raw) || 10`
keeps `-5` instead of replacing it by the default 10 — negative
pagination values are NOT replaced by the default. -/
theorem C1_counterexample :
    parseIntJS (some "-5") = some (-5) ∧
    normLimit (some "-5") = -5 ∧ ¬ normLimit (some "-5") = 10 :=
  ⟨rfl, rfl, by decide⟩

/-- A small concrete healthy database used by the witnesses:
three `public` tables (one of them the excluded diagnostic view), one
table in another schema, every user table holding 25 rows. -/
def dbOk : DBModel Nat :=
  { tables := [⟨"public", "users"⟩, ⟨"public", "pg_stat_statements"⟩,
      ⟨"auth", "users"⟩, ⟨"public", "accounts"⟩]
    rowsOf := fun _ => List.range 25
    metaFail := false
    fetchFail := false }

/-- `dbOk` with the metadata query transport failing. -/
def dbMetaDown : DBModel Nat := { dbOk with metaFail := true }

/-- `dbOk` with the data fetch transport failing. -/
def dbFetchDown : DBModel Nat := { dbOk with fetchFail := true }

/-- C2 (corrected): the code does not distinguish a metadata-transport
failure from an absent table — `if (tableError || !tableCheck)` maps
both to the 404 not-found envelope; only a failure of the subsequent
data fetch is caught and answered with HTTP 500. -/
theorem C2_error_mapping {α : Type} (db : DBModel α) (pid t : String)
    (rL rP : Option String) (r : TableRow) :
    (db.metaFail = true →
      (httpDataHandler db pid t rL rP).1.status = 404 ∧
      (httpDataHandler db pid t rL rP).1.success = false) ∧
    (db.metaFail = false → db.fetchFail = true →
      db.tables.filter
        (fun row => row.table_schema == "public" && row.table_name == t) = [r] →
      (httpDataHandler db pid t rL rP).1.status = 500 ∧
      (httpDataHandler db pid t rL rP).1.success = false) := by
  constructor
  · intro hm
    rw [httpDataHandler_metaFail db pid t rL rP hm]
    exact ⟨rfl, rfl⟩
  · intro hm hf hr
    rw [httpDataHandler_fetchFail db pid t rL rP r hm hf hr]
    exact ⟨rfl, rfl⟩

/-- Witness for C2: metadata transport down on an existing table gives
404; fetch transport down gives 500. -/
theorem C2_error_mapping_witness :
    ((httpDataHandler dbMetaDown "p1" "users" none none).1.status = 404 ∧
      (httpDataHandler dbMetaDown "p1" "users" none none).1.success = false) ∧
    ((httpDataHandler dbFetchDown "p1" "users" none none).1.status = 500 ∧
      (httpDataHandler dbFetchDown "p1" "users" none none).1.success = false) :=
  ⟨(C2_error_mapping dbMetaDown "p1" "users" none none ⟨"public", "users"⟩).1 rfl,
    (C2_error_mapping dbFetchDown "p1" "users" none none ⟨"public", "users"⟩).2
      rfl rfl rfl⟩

/-- C2 counterexample: with the metadata query transport failing on a
database where table `users` exists, the handler answers 404, not the
500 the claim requires for an `UpstreamError`. -/
theorem C2_counterexample :
    (httpDataHandler dbMetaDown "p1" "users" none none).1.status = 404 ∧
    ¬ (httpDataHandler dbMetaDown "p1" "users" none none).1.status = 500 :=
  ⟨rfl, by decide⟩

/-- C7 (confirmed): a `get_table_data` request naming a table absent
from the `public` schema is answered with the 404 `success:false`
envelope over HTTP and with a JSON-RPC error object (internal error,
id echoed) over STDIO; both handlers are total functions, so neither
crashes. -/
theorem C7_nonexistent_table {α : Type} (cfg : McpConfig) (db : DBModel α)
    (pid t : String) (rL rP : Option String) (id : RpcId) (pp : Option String)
    (hm : db.metaFail = false)
    (habs : ∀ row ∈ db.tables,
      ¬(row.table_schema = "public" ∧ row.table_name = t)) :
    (httpDataHandler db pid t rL rP).1.status = 404 ∧
    (httpDataHandler db pid t rL rP).1.success = false ∧
    (handleJsonRpc cfg true db
      (.jsonVal (some "2.0") (some id) (some "get_table_data")
        ⟨pp, some t, rL, rP⟩)).1 =
      .error id (-32603) ("Error fetching data from table " ++ t ++
        ": Table '" ++ t ++ "' not found") := by
  have hnil : db.tables.filter
      (fun r => r.table_schema == "public" && r.table_name == t) = [] := by
    rw [List.filter_eq_nil_iff]
    intro a ha
    simpa [Bool.and_eq_true, beq_iff_eq] using habs a ha
  refine ⟨?_, ?_, ?_⟩
  · rw [httpDataHandler_notFound db pid t rL rP hm hnil]
  · rw [httpDataHandler_notFound db pid t rL rP hm hnil]
  · have h2 := stdioGetTableData_notFound cfg db pp t rL rP hm hnil
    unfold handleJsonRpc liteParse
    simp [h2]

/-- Witness for C7 at the absent table name `ghost`. -/
theorem C7_nonexistent_table_witness :
    (httpDataHandler dbOk "p1" "ghost" (some "3") (some "0")).1.status = 404 ∧
    (httpDataHandler dbOk "p1" "ghost" (some "3") (some "0")).1.success = false ∧
    (handleJsonRpc {} true dbOk
      (.jsonVal (some "2.0") (some (.num 1)) (some "get_table_data")
        ⟨some "p1", some "ghost", some "3", some "0"⟩)).1 =
      .error (.num 1) (-32603)
        "Error fetching data from table ghost: Table 'ghost' not found" :=
  C7_nonexistent_table {} dbOk "p1" "ghost" (some "3") (some "0") (.num 1)
    (some "p1") rfl (by decide)

/-- An inclusive range of width `limit` returns at most `limit`
rows. -/
lemma rangeSelect_length_le {α : Type} (rows : List α) (off limit : Int)
    (h : 0 ≤ limit) :
    ((rangeSelect rows off (off + limit - 1)).length : Int) ≤ limit := by
  unfold rangeSelect
  have h1 : off + limit - 1 + 1 - off = limit := by ring
  rw [h1]
  have h2 : ((rows.drop off.toNat).take limit.toNat).length ≤ limit.toNat :=
    List.length_take_le _ _
  omega

/-- C5 (confirmed): on an existing table with no transport failure,
both transports compute `offset = page * limit`, issue exactly the
existence check followed by the ranged select over the inclusive range
`[offset, offset + limit - 1]` with the exact total count, return that
slice as the rows, and — for normalized `limit, page ≥ 0` — the number
of returned rows is at most `limit`. -/
theorem C5_range_contract {α : Type} (cfg : McpConfig) (db : DBModel α)
    (pid t : String) (rL rP : Option String) (pp : Option String) (r : TableRow)
    (hm : db.metaFail = false) (hf : db.fetchFail = false)
    (hr : db.tables.filter
      (fun row => row.table_schema == "public" && row.table_name == t) = [r])
    (hl : 0 ≤ normLimit rL) (_hp : 0 ≤ normPage rP) :
    (httpDataHandler db pid t rL rP).2 =
      [Query.metaSingleTable "public" t,
        Query.rangeSelectQ t (normPage rP * normLimit rL)
          (normPage rP * normLimit rL + normLimit rL - 1)] ∧
    (stdioGetTableData cfg true db ⟨pp, some t, rL, rP⟩).2 =
      [Query.metaSingleTable "public" t,
        Query.rangeSelectQ t (normPage rP * normLimit rL)
          (normPage rP * normLimit rL + normLimit rL - 1)] ∧
    (httpDataHandler db pid t rL rP).1.data =
      some (.page
        (rangeSelect (db.rowsOf t) (normPage rP * normLimit rL)
          (normPage rP * normLimit rL + normLimit rL - 1))
        ⟨((db.rowsOf t).length : Int), normPage rP, normLimit rL,
          pagesJS ((db.rowsOf t).length : Int) (normLimit rL)⟩) ∧
    ((rangeSelect (db.rowsOf t) (normPage rP * normLimit rL)
        (normPage rP * normLimit rL + normLimit rL - 1)).length : Int) ≤
      normLimit rL := by
  refine ⟨?_, ?_, ?_, ?_⟩
  · rw [httpDataHandler_success db pid t rL rP r hm hf hr]
  · rw [stdioGetTableData_success cfg db pp t rL rP r hm hf hr]
  · rw [httpDataHandler_success db pid t rL rP r hm hf hr]
  · exact rangeSelect_length_le (db.rowsOf t) (normPage rP * normLimit rL)
      (normLimit rL) hl

/-- Witness for C5: `users` has 25 rows, `limit=10`, `page=2`; the
range is `[20, 29]`, 5 rows come back, and 5 ≤ 10. -/
theorem C5_range_contract_witness :
    (httpDataHandler dbOk "p1" "users" (some "10") (some "2")).2 =
      [Query.metaSingleTable "public" "users",
        Query.rangeSelectQ "users" 20 29] ∧
    ((rangeSelect (dbOk.rowsOf "users") 20 29).length : Int) ≤ 10 ∧
    (rangeSelect (dbOk.rowsOf "users") 20 29).length = 5 := by
  have h := C5_range_contract {} dbOk "p1" "users" (some "10") (some "2")
    (some "p1") ⟨"public", "users"⟩ rfl rfl rfl (by decide) (by decide)
  refine ⟨?_, ?_, by decide⟩
  · exact h.1
  · exact h.2.2.2

/-- C6 (confirmed): in every successful `PageResult` of either
transport the `pages` field is `ceil(total / limit)` (exact rational
division, `limit` nonzero by normalization), and a total of 0 yields
`pages = 0`. -/
theorem C6_pages_ceil {α : Type} (cfg : McpConfig) (db : DBModel α)
    (pid t : String) (rL rP : Option String) (pp : Option String) (r : TableRow)
    (hm : db.metaFail = false) (hf : db.fetchFail = false)
    (hr : db.tables.filter
      (fun row => row.table_schema == "public" && row.table_name == t) = [r]) :
    (httpDataHandler db pid t rL rP).1.data =
      some (.page
        (rangeSelect (db.rowsOf t) (normPage rP * normLimit rL)
          (normPage rP * normLimit rL + normLimit rL - 1))
        ⟨((db.rowsOf t).length : Int), normPage rP, normLimit rL,
          pagesJS ((db.rowsOf t).length : Int) (normLimit rL)⟩) ∧
    (stdioGetTableData cfg true db ⟨pp, some t, rL, rP⟩).1 =
      .ok (.page
        (rangeSelect (db.rowsOf t) (normPage rP * normLimit rL)
          (normPage rP * normLimit rL + normLimit rL - 1))
        ⟨((db.rowsOf t).length : Int), normPage rP, normLimit rL,
          pagesJS ((db.rowsOf t).length : Int) (normLimit rL)⟩) ∧
    pagesJS ((db.rowsOf t).length : Int) (normLimit rL) =
      Int.ceil ((((db.rowsOf t).length : Int) : ℚ) /
        ((normLimit rL : Int) : ℚ)) ∧
    ((db.rowsOf t).length = 0 →
      pagesJS ((db.rowsOf t).length : Int) (normLimit rL) = 0) := by
  refine ⟨?_, ?_, ?_, ?_⟩
  · rw [httpDataHandler_success db pid t rL rP r hm hf hr]
  · rw [stdioGetTableData_success cfg db pp t rL rP r hm hf hr]
  · unfold pagesJS
    rw [if_neg (normLimit_ne_zero rL)]
  · intro h0
    unfold pagesJS
    rw [if_neg (normLimit_ne_zero rL), h0]
    simp

/-- Witness for C6: 25 rows with limit 10 give `pages = 3`; the ceil
equation instantiates at the concrete database. -/
theorem C6_pages_ceil_witness :
    pagesJS ((dbOk.rowsOf "users").length : Int) (normLimit (some "10")) =
      Int.ceil ((((dbOk.rowsOf "users").length : Int) : ℚ) /
        ((normLimit (some "10") : Int) : ℚ)) ∧
    pagesJS 25 10 = 3 ∧ pagesJS 0 10 = 0 := by
  have h := C6_pages_ceil {} dbOk "p1" "users" (some "10") (some "2")
    (some "p1") ⟨"public", "users"⟩ rfl rfl rfl
  refine ⟨h.2.2.1, ?_, ?_⟩
  · norm_num [pagesJS, Int.ceil_eq_iff]
  · norm_num [pagesJS, Int.ceil_eq_iff]

/-- C10 (confirmed): after normalization the limit is never zero —
`parseInt` results of `NaN` or `0` are falsy and replaced by 10 —
so the `limit = 0` guard in the `pages` computation is dead: the
division in `pages = ceil(total / limit)` is never a division by
zero. -/
theorem C10_limit_never_zero (raw : Option String) (total : Int) :
    normLimit raw ≠ 0 ∧
    pagesJS total (normLimit raw) =
      Int.ceil ((total : ℚ) / ((normLimit raw : Int) : ℚ)) := by
  refine ⟨normLimit_ne_zero raw, ?_⟩
  unfold pagesJS
  rw [if_neg (normLimit_ne_zero raw)]

/-! ### Framer lemmas -/

lemma splitLines_nil : splitLines [] = [[]] := rfl

lemma splitLines_cons_newline (cs : List Char) :
    splitLines ('\n' :: cs) = [] :: splitLines cs := by
  simp [splitLines]

lemma splitLines_cons_other {c : Char} (cs : List Char) (l : List Char)
    (ls : List (List Char)) (h : c ≠ '\n') (hs : splitLines cs = l :: ls) :
    splitLines (c :: cs) = (c :: l) :: ls := by
  unfold splitLines
  rw [if_neg h, hs]

lemma splitLines_ne_nil : ∀ l : List Char, splitLines l ≠ []
  | [] => by simp [splitLines]
  | c :: cs => by
    unfold splitLines
    by_cases h : c = '\n'
    · simp [h]
    · rw [if_neg h]
      cases hs : splitLines cs <;> simp

/-- Companion view of `splitLines`: the closed (newline-terminated)
parts and the trailing fragment, computed in one pass. -/
def splitParts : List Char → List (List Char) × List Char
  | [] => ([], [])
  | c :: cs =>
    let rest := splitParts cs
    if c = '\n' then ([] :: rest.1, rest.2)
    else
      match rest.1 with
      | p :: ps => ((c :: p) :: ps, rest.2)
      | [] => ([], c :: rest.2)

lemma splitParts_newline (cs : List Char) :
    splitParts ('\n' :: cs) =
      ([] :: (splitParts cs).1, (splitParts cs).2) := by
  simp [splitParts]

lemma splitParts_other_cons {c : Char} (cs p : List Char)
    (ps : List (List Char)) (h : c ≠ '\n')
    (hp : (splitParts cs).1 = p :: ps) :
    splitParts (c :: cs) = ((c :: p) :: ps, (splitParts cs).2) := by
  simp only [splitParts, hp, if_neg h]

lemma splitParts_other_nil {c : Char} (cs : List Char) (h : c ≠ '\n')
    (hp : (splitParts cs).1 = []) :
    splitParts (c :: cs) = ([], c :: (splitParts cs).2) := by
  simp only [splitParts, hp, if_neg h]

/-- `splitLines` is the closed parts followed by the fragment. -/
lemma splitLines_eq_splitParts : ∀ l : List Char,
    splitLines l = (splitParts l).1 ++ [(splitParts l).2]
  | [] => rfl
  | c :: cs => by
    have ih := splitLines_eq_splitParts cs
    by_cases hc : c = '\n'
    · subst hc
      rw [splitLines_cons_newline, ih, splitParts_newline]
      rfl
    · cases hp : (splitParts cs).1 with
      | nil =>
        rw [hp] at ih
        rw [List.nil_append] at ih
        rw [splitLines_cons_other cs (splitParts cs).2 [] hc ih,
          splitParts_other_nil cs hc hp]
        rfl
      | cons p ps =>
        rw [hp] at ih
        rw [List.cons_append] at ih
        rw [splitLines_cons_other cs p (ps ++ [(splitParts cs).2]) hc ih,
          splitParts_other_cons cs p ps hc hp]
        rfl

/-- The complete lines of the split are the closed parts. -/
lemma dropLast_splitLines (l : List Char) :
    (splitLines l).dropLast = (splitParts l).1 := by
  rw [splitLines_eq_splitParts]
  simp

/-- The trailing fragment of the split. -/
lemma getLastD_splitLines (l : List Char) :
    (splitLines l).getLastD [] = (splitParts l).2 := by
  rw [splitLines_eq_splitParts, List.getLastD_eq_getLast?,
    List.getLast?_concat]
  rfl

/-- Splitting a concatenation: the closed parts of the left string,
then the split of its trailing fragment glued onto the right string —
the invariant behind buffering a partial line across chunks. -/
lemma splitParts_append : ∀ xs ys : List Char,
    splitParts (xs ++ ys) =
      ((splitParts xs).1 ++ (splitParts ((splitParts xs).2 ++ ys)).1,
        (splitParts ((splitParts xs).2 ++ ys)).2) := by
  intro xs
  induction xs with
  | nil => intro ys; rfl
  | cons c cs ih =>
    intro ys
    by_cases hc : c = '\n'
    · subst hc
      rw [List.cons_append, splitParts_newline, splitParts_newline, ih ys]
      rfl
    · cases hp : (splitParts cs).1 with
      | nil =>
        -- all of `cs` is fragment: `c` joins the fragment, and the
        -- outer recomputation starts from `c :: fragment`
        have h1 : (splitParts (cs ++ ys)).1 =
            (splitParts ((splitParts cs).2 ++ ys)).1 := by
          rw [ih ys, hp, List.nil_append]
        have h2 : (splitParts (cs ++ ys)).2 =
            (splitParts ((splitParts cs).2 ++ ys)).2 := by
          rw [ih ys]
        rw [List.cons_append, splitParts_other_nil cs hc hp]
        show splitParts (c :: (cs ++ ys)) =
          ((splitParts ((c :: (splitParts cs).2) ++ ys)).1,
            (splitParts ((c :: (splitParts cs).2) ++ ys)).2)
        rw [List.cons_append]
        cases hq : (splitParts ((splitParts cs).2 ++ ys)).1 with
        | nil =>
          rw [splitParts_other_nil (cs ++ ys) hc (h1.trans hq),
            splitParts_other_nil ((splitParts cs).2 ++ ys) hc hq, h2]
        | cons q qs =>
          rw [splitParts_other_cons (cs ++ ys) q qs hc (h1.trans hq),
            splitParts_other_cons ((splitParts cs).2 ++ ys) q qs hc hq, h2]
      | cons p ps =>
        have h1 : (splitParts (cs ++ ys)).1 =
            p :: (ps ++ (splitParts ((splitParts cs).2 ++ ys)).1) := by
          rw [ih ys, hp, List.cons_append]
        have h2 : (splitParts (cs ++ ys)).2 =
            (splitParts ((splitParts cs).2 ++ ys)).2 := by
          rw [ih ys]
        rw [List.cons_append,
          splitParts_other_cons (cs ++ ys) p
            (ps ++ (splitParts ((splitParts cs).2 ++ ys)).1) hc h1,
          splitParts_other_cons cs p ps hc hp, h2]
        simp

/-- The processing loop emits exactly the trimmed nonblank complete
lines (all parts but the last), in order. -/
lemma processableLines_eq_filter : ∀ ls : List (List Char), ls ≠ [] →
    processableLines ls =
      (ls.dropLast.map trimWs).filter (fun t => t ≠ [])
  | [], h => absurd rfl h
  | [x], _ => by simp [processableLines]
  | x :: y :: u, _ => by
    have ih := processableLines_eq_filter (y :: u) (by simp)
    unfold processableLines
    rw [List.dropLast_cons₂, List.map_cons, List.filter_cons, ih]
    by_cases hx : trimWs x = []
    · simp [hx]
    · simp [hx]

/-- `framerStep` in terms of the closed parts and the fragment. -/
lemma framerStep_eq (buf chunk : List Char) :
    framerStep buf chunk =
      (((splitParts (buf ++ chunk)).1.map trimWs).filter (fun t => t ≠ []),
        (splitParts (buf ++ chunk)).2) := by
  show (processableLines (splitLines (buf ++ chunk)),
    (splitLines (buf ++ chunk)).getLastD []) = _
  rw [processableLines_eq_filter _ (splitLines_ne_nil _),
    dropLast_splitLines, getLastD_splitLines]

/-- Splitting off a complete (newline-free) leading line. -/
lemma splitLines_newline_sep : ∀ (a r : List Char), '\n' ∉ a →
    splitLines (a ++ '\n' :: r) = a :: splitLines r
  | [], r, _ => by rw [List.nil_append, splitLines_cons_newline]
  | c :: a', r, h => by
    have hc : c ≠ '\n' := fun he => h (he ▸ List.mem_cons_self c a')
    have h' : '\n' ∉ a' := fun hm => h (List.mem_cons_of_mem c hm)
    rw [List.cons_append,
      splitLines_cons_other (a' ++ '\n' :: r) a' (splitLines r) hc
        (splitLines_newline_sep a' r h')]

/-- `lexLeChars` is total. -/
lemma lexLeChars_total : ∀ as bs : List Char,
    lexLeChars as bs = true ∨ lexLeChars bs as = true := by
  intro as
  induction as with
  | nil => intro bs; left; rfl
  | cons a as ih =>
    intro bs
    cases bs with
    | nil => right; rfl
    | cons b bs' =>
      simp only [lexLeChars]
      rcases Nat.lt_trichotomy a.toNat b.toNat with h | h | h
      · left; rw [if_pos h]
      · rw [if_neg (by omega), if_neg (by omega), if_neg (by omega),
          if_neg (by omega)]
        exact ih bs'
      · right; rw [if_pos h]

/-- `lexLeChars` is transitive. -/
lemma lexLeChars_trans : ∀ as bs cs : List Char,
    lexLeChars as bs = true → lexLeChars bs cs = true →
    lexLeChars as cs = true := by
  intro as
  induction as with
  | nil => intro bs cs _ _; rfl
  | cons a as ih =>
    intro bs cs hab hbc
    cases bs with
    | nil => simp [lexLeChars] at hab
    | cons b bs' =>
      cases cs with
      | nil => simp [lexLeChars] at hbc
      | cons c cs' =>
        simp only [lexLeChars] at hab hbc ⊢
        split_ifs at hab hbc ⊢ <;> first
          | rfl
          | omega
          | exact ih bs' cs' hab hbc

instance : IsTotal TableRow rowLe :=
  ⟨fun a b => lexLeChars_total a.table_name.toList b.table_name.toList⟩

instance : IsTrans TableRow rowLe :=
  ⟨fun a b c hab hbc =>
    lexLeChars_trans a.table_name.toList b.table_name.toList
      c.table_name.toList hab hbc⟩

/-- C8 (confirmed): when the metadata query succeeds, the list-tables
operation returns, as `{schema, name}` pairs, exactly the tables of
the `public` schema minus the hardcoded `pg_stat_statements`
diagnostic view, ordered lexicographically ascending by table name. -/
theorem C8_list_tables {α : Type} (db : DBModel α) (pid : String)
    (hm : db.metaFail = false) :
    (httpTablesHandler db pid).1 =
      ⟨200, true, some (.tables (sortedPublicTables db)), none⟩ ∧
    (∀ row ∈ db.tables, row.table_schema = "public" →
      row.table_name ≠ "pg_stat_statements" →
      (⟨row.table_schema, row.table_name⟩ : TableRef) ∈ sortedPublicTables db) ∧
    (∀ x ∈ sortedPublicTables db, x.schema = "public" ∧
      x.name ≠ "pg_stat_statements" ∧
      (⟨x.schema, x.name⟩ : TableRow) ∈ db.tables) ∧
    (sortedPublicTables db).Pairwise
      (fun x y => lexLeChars x.name.toList y.name.toList = true) := by
  refine ⟨?_, ?_, ?_, ?_⟩
  · unfold httpTablesHandler listTablesQuery
    simp [hm]
  · intro row hrow hsch hname
    unfold sortedPublicTables
    rw [List.mem_map]
    refine ⟨row, ?_, rfl⟩
    rw [List.mem_insertionSort, List.mem_filter, List.mem_filter]
    refine ⟨⟨hrow, by simp [hsch]⟩, by simp [hname]⟩
  · intro x hx
    unfold sortedPublicTables at hx
    rw [List.mem_map] at hx
    obtain ⟨row, hrow, hfx⟩ := hx
    rw [List.mem_insertionSort, List.mem_filter, List.mem_filter] at hrow
    obtain ⟨⟨hmem, hsch⟩, hname⟩ := hrow
    subst hfx
    refine ⟨by simpa using hsch, by simpa using hname, ?_⟩
    simpa using hmem
  · unfold sortedPublicTables
    rw [List.pairwise_map]
    exact List.sorted_insertionSort rowLe _

/-- Witness for C8 at the concrete database: the two remaining public
tables come back ordered `accounts`, `users`. -/
theorem C8_list_tables_witness :
    (httpTablesHandler dbOk "p1").1 =
      ⟨200, true, some (.tables (sortedPublicTables dbOk)), none⟩ ∧
    sortedPublicTables dbOk =
      [⟨"public", "accounts"⟩, ⟨"public", "users"⟩] :=
  ⟨(C8_list_tables dbOk "p1" rfl).1, by decide⟩

/-- C9 (confirmed): noninterference on the project identifier — for
any two requests identical except for the `:projectId` path segment or
the `project_id` param, each handler issues the same backing-client
queries (the recorded query lists are equal) and produces the same
response; the project identifier never influences connection selection
or the result. -/
theorem C9_projectId_noninterference {α : Type} (cfg : McpConfig)
    (hasClient : Bool) (db : DBModel α) (pid₁ pid₂ t : String)
    (rL rP : Option String) (id : RpcId) (pp₁ pp₂ : Option String) :
    httpDataHandler db pid₁ t rL rP = httpDataHandler db pid₂ t rL rP ∧
    httpTablesHandler db pid₁ = httpTablesHandler db pid₂ ∧
    handleJsonRpc cfg hasClient db
      (.jsonVal (some "2.0") (some id) (some "get_table_data")
        ⟨pp₁, some t, rL, rP⟩) =
      handleJsonRpc cfg hasClient db
        (.jsonVal (some "2.0") (some id) (some "get_table_data")
          ⟨pp₂, some t, rL, rP⟩) ∧
    handleJsonRpc cfg hasClient db
      (.jsonVal (some "2.0") (some id) (some "list_tables")
        ⟨pp₁, none, none, none⟩) =
      handleJsonRpc cfg hasClient db
        (.jsonVal (some "2.0") (some id) (some "list_tables")
          ⟨pp₂, none, none, none⟩) :=
  ⟨rfl, rfl, rfl, rfl⟩

/-- C4 (corrected): each chunk is appended to the buffer and the
result split on newlines; the trailing fragment is retained as the new
buffer and recombines with the next chunk exactly as if both chunks
had arrived together; of the complete lines (all split parts but the
last), exactly the ones that are nonblank after trimming are processed,
once each, in order — a whitespace-only complete line is silently
skipped rather than processed as a JSON-RPC message. -/
theorem C4_framer_invariant (buf chunk c₂ : List Char) :
    (framerStep buf chunk).1 =
      (((splitLines (buf ++ chunk)).dropLast).map trimWs).filter
        (fun t => t ≠ []) ∧
    (framerStep buf chunk).2 = (splitLines (buf ++ chunk)).getLastD [] ∧
    (framerStep buf (chunk ++ c₂)).1 =
      (framerStep buf chunk).1 ++ (framerStep (framerStep buf chunk).2 c₂).1 ∧
    (framerStep buf (chunk ++ c₂)).2 =
      (framerStep (framerStep buf chunk).2 c₂).2 := by
  refine ⟨?_, ?_, ?_, ?_⟩
  · rw [framerStep_eq, dropLast_splitLines]
  · rw [framerStep_eq, getLastD_splitLines]
  · rw [framerStep_eq, framerStep_eq, framerStep_eq]
    rw [← List.append_assoc, splitParts_append (buf ++ chunk) c₂]
    simp [List.map_append, List.filter_append]
  · rw [framerStep_eq, framerStep_eq, framerStep_eq]
    rw [← List.append_assoc, splitParts_append (buf ++ chunk) c₂]

/-- C4 counterexample: feeding the chunk `" \n"` to an empty buffer
yields one complete line (`" "`), yet the framer processes no message
at all — the whitespace-only line is trimmed and skipped, so not every
complete line is processed as a JSON-RPC message. -/
theorem C4_counterexample :
    (splitLines [' ', '\n']).dropLast = [[' ']] ∧
    (framerStep [] [' ', '\n']).1 = [] := by decide

/-- C3 (corrected): a complete line that is not valid JSON is answered
with a single error response whose id is null — but with the
`InvalidRequest` code -32600 (jsonrpc-lite's `parse` catches the
`JSON.parse` failure and returns type `invalid`, which the dispatcher
maps to `invalidRequest`), not a -32700 `ParseError`; the read loop
does not crash, and a valid line following the invalid one is still
processed and answered. -/
theorem C3_invalid_json_line {α : Type} (cfg : McpConfig) (hasClient : Bool)
    (db : DBModel α) (decode : List Char → LineContent) (a b : List Char)
    (raw : String) (hna : '\n' ∉ a) (hnb : '\n' ∉ b)
    (hta : trimWs a = a) (ha : a ≠ []) (htb : trimWs b = b) (hb : b ≠ [])
    (hdec : decode a = .notJson raw) :
    stepResponses cfg hasClient db decode [] (a ++ '\n' :: (b ++ ['\n'])) =
      ([.error .null (-32600) "Invalid request",
        (handleJsonRpc cfg hasClient db (decode b)).1], []) := by
  have h1 : splitLines (a ++ '\n' :: (b ++ ['\n'])) =
      a :: splitLines (b ++ ['\n']) := splitLines_newline_sep a _ hna
  have h2 : splitLines (b ++ ['\n']) = b :: splitLines [] :=
    splitLines_newline_sep b [] hnb
  rw [splitLines_nil] at h2
  simp only [stepResponses, framerStep, List.nil_append]
  rw [h1, h2]
  simp only [processableLines]
  rw [hta, htb, if_neg ha, if_neg hb]
  simp [hdec, handleJsonRpc, liteParse]

/-- A concrete `JSON.parse` verdict function for the C3 witness: the
line `oops` is not valid JSON, every other line is a well-formed
`listTools` request. -/
def decodeEx : List Char → LineContent := fun l =>
  if l = "oops".toList then .notJson "oops"
  else .jsonVal (some "2.0") (some (.num 7)) (some "listTools") {}

/-- Witness for C3: the chunk `"oops\nreq\n"` produces the null-id
-32600 error for the first line and a normal success response for the
second — the valid line after the invalid one is not lost. -/
theorem C3_invalid_json_line_witness :
    stepResponses ({} : McpConfig) true dbOk decodeEx []
      ("oops".toList ++ '\n' :: ("req".toList ++ ['\n'])) =
      ([.error .null (-32600) "Invalid request",
        .success (.num 7) (.toolsList ["list_tables", "get_table_data"])],
        []) := by
  have h := C3_invalid_json_line {} true dbOk decodeEx
    "oops".toList "req".toList "oops" (by decide) (by decide) (by decide)
    (by decide) (by decide) (by decide) (by decide)
  rw [h]
  rfl

/-- C3 counterexample: the response to an invalid-JSON line carries
error code -32600 (`Invalid request`), not the -32700 `ParseError` the
claim names. -/
theorem C3_counterexample :
    (handleJsonRpc ({} : McpConfig) true dbOk (.notJson "this is not json")).1 =
      .error .null (-32600) "Invalid request" ∧
    (handleJsonRpc ({} : McpConfig) true dbOk (.notJson "this is not json")).1 ≠
      .error .null (-32700) "Parse error" ∧
    (-32600 : Int) ≠ -32700 :=
  ⟨rfl, by decide, by decide⟩

end SupabaseMcp
